import Mathlib

/-!
Verification of the image transformation tool (`imgtransform.py`).

The tool converts a grayscale raster image into a halftone, Bayer-dithered or
posterized version.  We embed the three pixel-transformation algorithms
shallowly: a decoded image is a row-major grid of 8-bit luminance samples
(`List (List Nat)`), and the floating-point arithmetic of the source
(numpy means, the Bayer matrix scaling, the dot-radius formula) is modelled
exactly over `ℚ` — every value the source computes in these ranges is a
dyadic rational represented exactly in double precision, so the rational
model is bit-exact for the comparisons the code performs.
-/

namespace ImgTransform

/-- A decoded grayscale image: rows of luminance samples (0 = black,
255 = white), row-major, origin top-left. -/
abbrev Grid := List (List Nat)

/-- Number of rows of the grid (`height` of `img.size` / `img_array.shape`). -/
def Grid.height (g : Grid) : Nat := g.length

/-- Number of columns of the grid (`width`): length of the first row; decoded
images are rectangular, so all rows share it. -/
def Grid.width (g : Grid) : Nat := (g.headD []).length

/-- Sample at row `y`, column `x` (`img_array[y, x]`), defaulting to 0 out of
range. -/
def Grid.get (g : Grid) (y x : Nat) : Nat := (g.getD y []).getD x 0

/-- The grid is rectangular: every row has length `g.width`.  Decoded images
always satisfy this. -/
def Grid.Rect (g : Grid) : Prop := ∀ row ∈ g, row.length = g.width

/-- Well-formed decoded image: rectangular with 8-bit samples. -/
def Grid.Wf (g : Grid) : Prop :=
  g.Rect ∧ ∀ row ∈ g, ∀ v ∈ row, v ≤ 255

/-! ### Bayer dithering (`bayer_dither`) -/

/-- The raw 8×8 Bayer threshold matrix of the source, values 0..63
(`bayer_matrix` before normalization). -/
def bayer_matrix : List (List Nat) :=
  [[ 0, 32,  8, 40,  2, 34, 10, 42],
   [48, 16, 56, 24, 50, 18, 58, 26],
   [12, 44,  4, 36, 14, 46,  6, 38],
   [60, 28, 52, 20, 62, 30, 54, 22],
   [ 3, 35, 11, 43,  1, 33,  9, 41],
   [51, 19, 59, 27, 49, 17, 57, 25],
   [15, 47,  7, 39, 13, 45,  5, 37],
   [63, 31, 55, 23, 61, 29, 53, 21]]

/-- Entry `(y, x)` of the normalized matrix: `(bayer_matrix / 64.0) * 255.0`.
The double-precision computation is exact here, so `ℚ` models it bit-exactly. -/
def bayerThreshold (y x : Nat) : ℚ :=
  (((bayer_matrix.getD y []).getD x 0 : ℚ) / 64) * 255

/-- `bayer_dither`: for every pixel, `threshold = bayer_matrix[y % 8, x % 8]`
(normalized); output is 255 if the sample is strictly greater, else 0.
The source loops `for y in range(height): for x in range(width)` writing
`output_array[y, x]`. -/
def bayer_dither (g : Grid) : Grid :=
  (List.range g.height).map fun y =>
    (List.range g.width).map fun x =>
      if (g.get y x : ℚ) > bayerThreshold (y % 8) (x % 8) then 255 else 0

/-! ### Posterization (`posterize`) -/

/-- `posterize`: `np.where(img_array > threshold, 255, 0)` — elementwise
strict comparison against the integer threshold. -/
def posterize (g : Grid) (threshold : Int) : Grid :=
  g.map fun row => row.map fun (v : Nat) => if (v : Int) > threshold then 255 else 0

/-! ### Halftone (`halftone`) -/

/-- `range(0, stop, step)` for a positive step: `0, step, 2*step, …` below
`stop`. -/
def pyRangePos (stop step : Nat) : List Nat :=
  (List.range ((stop + step - 1) / step)).map (· * step)

/-- The pixels of the cropped cell
`img.crop((x, y, min(x + dot_size, width), min(y + dot_size, height)))`:
rows `y ≤ j < min (y + d) height`, columns `x ≤ i < min (x + d) width`,
row-major. -/
def cellPixels (g : Grid) (x y d : Nat) : List Nat :=
  (List.range' y (min (y + d) g.height - y)).flatMap fun j =>
    (List.range' x (min (x + d) g.width - x)).map fun i => g.get j i

/-- `avg_brightness = np.array(region).mean()`: sum of the cropped cell's
samples divided by their number (exact rational model of the float mean). -/
def avg_brightness (g : Grid) (x y d : Nat) : ℚ :=
  (((cellPixels g x y d).map fun (v : Nat) => (v : ℚ)).sum) /
    ((cellPixels g x y d).length : ℚ)

/-- `dot_radius = ((255 - avg_brightness) / 255) * (dot_size * scale / 2)`. -/
def dot_radius (avg : ℚ) (d scale : Nat) : ℚ :=
  ((255 - avg) / 255) * ((d : ℚ) * scale / 2)

/-- A filled circle queued for drawing: center coordinates and radius, as the
real values the source passes to `draw.ellipse`. -/
structure Circle where
  cx : ℚ
  cy : ℚ
  r : ℚ
deriving DecidableEq, Repr

/-- The row-major list of circles `halftone` draws onto the canvas.
`range(0, height, dot_size)` raises `ValueError` when the step is zero
(modelled as `.error ()`); a negative step makes both loops empty.  For a
positive step, each cell at `(x, y)` contributes a circle exactly when its
`dot_radius > 0.5`, centered at
`((x + dot_size / 2) * scale, (y + dot_size / 2) * scale)`. -/
def halftoneCircles (g : Grid) (dot_size : Int) (scale : Nat) :
    Except Unit (List Circle) :=
  if dot_size = 0 then .error ()
  else if dot_size < 0 then .ok []
  else
    let d := dot_size.toNat
    .ok <| (pyRangePos g.height d).flatMap fun y =>
      (pyRangePos g.width d).filterMap fun x =>
        let r := dot_radius (avg_brightness g x y d) d scale
        if r > 1 / 2 then
          some ⟨((x : ℚ) + (d : ℚ) / 2) * scale, ((y : ℚ) + (d : ℚ) / 2) * scale, r⟩
        else none

/-- Models the imaging library's filled-ellipse rasterization
(`draw.ellipse([cx - r, cy - r, cx + r, cy + r], fill=0)`): a pixel is painted
exactly when it lies in the closed disk; the fill value is 0 and there is no
anti-aliasing. -/
def inDisk (c : Circle) (px py : Nat) : Bool :=
  decide (((px : ℚ) - c.cx) ^ 2 + ((py : ℚ) - c.cy) ^ 2 ≤ c.r ^ 2)

/-- `halftone`: the output canvas has dimensions
`(width * scale, height * scale)`, is initialized to white (255), and every
queued circle paints its pixels black (0); pixels covered by no circle stay
255. -/
def halftone (g : Grid) (dot_size : Int) (scale : Nat) : Except Unit Grid :=
  (halftoneCircles g dot_size scale).map fun cs =>
    (List.range (g.height * scale)).map fun py =>
      (List.range (g.width * scale)).map fun px =>
        if cs.any (fun c => inDisk c px py) then 0 else 255

/-! ### Definitions taken from the specification's words, and test fixtures -/

/-- The 8×8 Bayer matrix exactly as §6 of the specification prints it
(raw 0..63 values, row-major), to compare with the source's constant. -/
def specBayerMatrix : List (List Nat) :=
  [[ 0, 32,  8, 40,  2, 34, 10, 42],
   [48, 16, 56, 24, 50, 18, 58, 26],
   [12, 44,  4, 36, 14, 46,  6, 38],
   [60, 28, 52, 20, 62, 30, 54, 22],
   [ 3, 35, 11, 43,  1, 33,  9, 41],
   [51, 19, 59, 27, 49, 17, 57, 25],
   [15, 47,  7, 39, 13, 45,  5, 37],
   [63, 31, 55, 23, 61, 29, 53, 21]]

/-- The arithmetic mean over exactly the clipped cell, stated from the
spec's words (§4.2): sum of the luminance samples of the coordinate
rectangle `[cx, min (cx+d) width) × [cy, min (cy+d) height)` divided by the
true (possibly smaller) pixel count of that rectangle. -/
def specCellMean (g : Grid) (cx cy d : Nat) : ℚ :=
  (∑ j ∈ Finset.Ico cy (min (cy + d) g.height),
    ∑ i ∈ Finset.Ico cx (min (cx + d) g.width), (g.get j i : ℚ)) /
  (((min (cy + d) g.height - cy) * (min (cx + d) g.width - cx) : ℕ) : ℚ)

/-- The uniform all-black 8×8 source grid of Scenario F. -/
def blackGrid8 : Grid := List.replicate 8 (List.replicate 8 0)

/-! ### Helper lemmas -/

/-- Reading a pixel of a grid built as a map over coordinate ranges. -/
lemma Grid.get_ofFun (h w : Nat) (f : Nat → Nat → Nat) {y x : Nat}
    (hy : y < h) (hx : x < w) :
    Grid.get ((List.range h).map fun j => (List.range w).map fun i => f j i) y x
      = f y x := by
  unfold Grid.get
  have h1 : ((List.range h).map fun j => (List.range w).map fun i => f j i).getD y []
      = (List.range w).map fun i => f y i := by
    rw [List.getD_eq_getElem ((List.range h).map fun j => (List.range w).map fun i => f j i)
      [] (by simpa using hy), List.getElem_map, List.getElem_range]
  rw [h1, List.getD_eq_getElem ((List.range w).map fun i => f y i) 0 (by simpa using hx),
    List.getElem_map, List.getElem_range]

/-- Reading a pixel of a grid obtained by mapping a function over every
sample. -/
lemma Grid.get_mapPixels (g : Grid) (f : Nat → Nat) {y x : Nat}
    (hy : y < g.height) (hx : x < (g.getD y []).length) :
    Grid.get (g.map fun row => row.map f) y x = f (g.get y x) := by
  unfold Grid.get Grid.height at *
  have hx2 : x < (g[y]).length := by
    rwa [List.getD_eq_getElem g [] hy] at hx
  have h1 : (g.map fun row => row.map f).getD y [] = (g[y]).map f := by
    rw [List.getD_eq_getElem (g.map fun row => row.map f) [] (by simpa using hy),
      List.getElem_map]
  rw [h1, List.getD_eq_getElem ((g[y]).map f) 0 (by simpa using hx2),
    List.getElem_map, List.getD_eq_getElem g [] hy,
    List.getD_eq_getElem (g[y]) 0 hx2]

/-- The height of a grid built as a map over coordinate ranges. -/
lemma Grid.height_ofFun (h w : Nat) (f : Nat → Nat → Nat) :
    Grid.height ((List.range h).map fun j => (List.range w).map fun i => f j i)
      = h := by
  simp [Grid.height]

/-- The width of a grid built as a map over coordinate ranges (for a positive
height). -/
lemma Grid.width_ofFun (h w : Nat) (f : Nat → Nat → Nat) (hh : 0 < h) :
    Grid.width ((List.range h).map fun j => (List.range w).map fun i => f j i)
      = w := by
  unfold Grid.width
  have h0 : 0 < ((List.range h).map fun j => (List.range w).map fun i => f j i).length := by
    simpa using hh
  rw [List.headD_eq_head?, List.head?_eq_getElem?, List.getElem?_eq_getElem h0,
    List.getElem_map, Option.getD_some]
  simp

/-- An index is below the ceiling `⌈n / d⌉` exactly when the corresponding
multiple of `d` is below `n`. -/
lemma lt_ceilDiv_iff {i n d : Nat} (hd : 0 < d) :
    i < (n + d - 1) / d ↔ i * d < n := by
  have h1 : i + 1 ≤ (n + d - 1) / d ↔ (i + 1) * d ≤ n + d - 1 :=
    Nat.le_div_iff_mul_le hd
  have h2 : (i + 1) * d = i * d + d := by ring
  rw [h2] at h1
  constructor
  · intro h
    have h3 := h1.1 h
    set m := i * d with hm
    omega
  · intro h
    apply h1.2
    set m := i * d with hm
    omega

/-- Membership in the sampling positions `range(0, n, d)` for a positive
step: exactly the multiples of `d` below `n`. -/
lemma mem_pyRangePos {n d y : Nat} (hd : 0 < d) :
    y ∈ pyRangePos n d ↔ d ∣ y ∧ y < n := by
  unfold pyRangePos
  simp only [List.mem_map, List.mem_range]
  constructor
  · rintro ⟨i, hi, rfl⟩
    exact ⟨⟨i, mul_comm i d⟩, (lt_ceilDiv_iff hd).1 hi⟩
  · rintro ⟨⟨c, rfl⟩, hy⟩
    exact ⟨c, (lt_ceilDiv_iff hd).2 (by rwa [mul_comm] at hy), mul_comm c d⟩

/-- Sum of a mapped `List.range` as a `Finset.range` sum. -/
lemma sum_map_range (n : Nat) (f : Nat → ℚ) :
    ((List.range n).map f).sum = ∑ i ∈ Finset.range n, f i := by
  induction n with
  | zero => simp
  | succ n ih =>
      rw [List.range_succ, List.map_append, List.sum_append,
        Finset.sum_range_succ, ih]
      simp

/-- Sum of a mapped `List.range'` as a `Finset.Ico` sum. -/
lemma sum_map_range' (a n : Nat) (f : Nat → ℚ) :
    ((List.range' a n).map f).sum = ∑ i ∈ Finset.Ico a (a + n), f i := by
  rw [List.range'_eq_map_range, List.map_map, sum_map_range,
    Finset.sum_Ico_eq_sum_range]
  simp [Function.comp_def]

/-- Sum of a constant list of naturals. -/
lemma sum_map_const_nat (l : List Nat) (c : Nat) :
    (l.map fun _ => c).sum = l.length * c := by
  induction l with
  | nil => simp
  | cons a l ih => simp [ih, Nat.succ_mul, Nat.add_comm]

/-- The cropped cell holds exactly
`(min (y+d) height − y) * (min (x+d) width − x)` samples. -/
lemma cellPixels_length (g : Grid) (x y d : Nat) :
    (cellPixels g x y d).length =
      (min (y + d) g.height - y) * (min (x + d) g.width - x) := by
  unfold cellPixels
  rw [List.length_flatMap]
  simp only [Function.comp_def, List.length_map, List.length_range']
  rw [sum_map_const_nat, List.length_range']

/-- The sum of the cropped cell's samples as a double `Finset.Ico` sum over
its coordinate rectangle. -/
lemma cellPixels_sum (g : Grid) (x y d : Nat)
    (hx : x ≤ g.width) (hy : y ≤ g.height) :
    ((cellPixels g x y d).map fun (v : Nat) => (v : ℚ)).sum =
      ∑ j ∈ Finset.Ico y (min (y + d) g.height),
        ∑ i ∈ Finset.Ico x (min (x + d) g.width), (g.get j i : ℚ) := by
  unfold cellPixels
  rw [List.map_flatMap]
  simp only [List.map_map]
  rw [List.flatMap_def, List.sum_flatten, List.map_map]
  have hyy : y + (min (y + d) g.height - y) = min (y + d) g.height := by
    omega
  have hxx : x + (min (x + d) g.width - x) = min (x + d) g.width := by
    omega
  rw [sum_map_range' y (min (y + d) g.height - y) _, hyy]
  refine Finset.sum_congr rfl fun j _ => ?_
  simp only [Function.comp_def]
  rw [sum_map_range' x (min (x + d) g.width - x) _, hxx]

/-- The source's `avg_brightness` is the spec's clipped-cell mean. -/
lemma avg_brightness_eq_specCellMean (g : Grid) (x y d : Nat)
    (hx : x ≤ g.width) (hy : y ≤ g.height) :
    avg_brightness g x y d = specCellMean g x y d := by
  unfold avg_brightness specCellMean
  rw [cellPixels_sum g x y d hx hy, cellPixels_length]

/-! ### Claim theorems -/

/-- C2: for every source grid and pixel (x,y), the Bayer dither output pixel
is 255 if `source[y][x] > matrix[y mod 8][x mod 8] * 255 / 64` and 0
otherwise (strict inequality), where the raw matrix is exactly the 8×8
matrix of §6. -/
theorem C2_bayer_dither_pixel (g : Grid) (y x : Nat)
    (hy : y < g.height) (hx : x < g.width) :
    bayer_matrix = specBayerMatrix ∧
    (bayer_dither g).get y x =
      if (g.get y x : ℚ) >
          ((bayer_matrix.getD (y % 8) []).getD (x % 8) 0 : ℚ) * 255 / 64
      then 255 else 0 := by
  refine ⟨rfl, ?_⟩
  unfold bayer_dither
  rw [Grid.get_ofFun g.height g.width _ hy hx]
  have hth : bayerThreshold (y % 8) (x % 8)
      = ((bayer_matrix.getD (y % 8) []).getD (x % 8) 0 : ℚ) * 255 / 64 := by
    unfold bayerThreshold; ring
  rw [hth]

/-- Witness for C2 at a concrete grid and pixel: sample 200 against raw
threshold 16 (scaled 63.75) yields white. -/
theorem C2_bayer_dither_pixel_witness :
    (bayer_dither [[255, 0], [7, 200]]).get 1 1 = 255 := by
  have h := C2_bayer_dither_pixel [[255, 0], [7, 200]] 1 1 (by decide) (by decide)
  rw [h.2, show Grid.get [[255, 0], [7, 200]] 1 1 = 200 from rfl,
    show (bayer_matrix.getD (1 % 8) []).getD (1 % 8) 0 = 16 from rfl]
  norm_num

/-- C3: posterize maps every pixel to 255 exactly when it is strictly greater
than the threshold, else 0; a pixel equal to the threshold yields 0 and one
equal to threshold+1 yields 255. -/
theorem C3_posterize_pixel (g : Grid) (t : Int) (ht0 : 0 ≤ t) (ht1 : t ≤ 255)
    (y x : Nat) (hy : y < g.height) (hx : x < (g.getD y []).length) :
    (posterize g t).get y x = (if (g.get y x : Int) > t then 255 else 0) ∧
    ((g.get y x : Int) = t → (posterize g t).get y x = 0) ∧
    ((g.get y x : Int) = t + 1 → (posterize g t).get y x = 255) := by
  have hmain : (posterize g t).get y x
      = if (g.get y x : Int) > t then 255 else 0 :=
    Grid.get_mapPixels g (fun v => if (v : Int) > t then 255 else 0) hy hx
  refine ⟨hmain, ?_, ?_⟩ <;> intro hv <;> rw [hmain, hv] <;> simp

/-- Witness for C3: pixel value 128 at threshold 128 goes to black. -/
theorem C3_posterize_pixel_witness : (posterize [[128]] 128).get 0 0 = 0 := by
  have h := C3_posterize_pixel [[128]] 128 (by decide) (by decide) 0 0
    (by decide) (by decide)
  exact h.2.1 (by decide)

/-- C5: every pixel of the dither output and of the posterize output is
either 0 or 255. -/
theorem C5_binary_range (g : Grid) (t : Int) (ht0 : 0 ≤ t) (ht1 : t ≤ 255) :
    (∀ row ∈ bayer_dither g, ∀ v ∈ row, v = 0 ∨ v = 255) ∧
    (∀ row ∈ posterize g t, ∀ v ∈ row, v = 0 ∨ v = 255) := by
  constructor
  · intro row hrow v hv
    unfold bayer_dither at hrow
    obtain ⟨y, hy, rfl⟩ := List.mem_map.mp hrow
    obtain ⟨x, hx, rfl⟩ := List.mem_map.mp hv
    split <;> simp
  · intro row hrow v hv
    unfold posterize at hrow
    obtain ⟨r, hr, rfl⟩ := List.mem_map.mp hrow
    obtain ⟨w, hw, rfl⟩ := List.mem_map.mp hv
    split <;> simp

/-- Witness for C5: the pixels of concrete dithered and posterized images are
in {0, 255}. -/
theorem C5_binary_range_witness :
    ((bayer_dither [[7, 200]]).get 0 0 = 0 ∨ (bayer_dither [[7, 200]]).get 0 0 = 255) ∧
    ((posterize [[100, 200]] 128).get 0 1 = 0 ∨ (posterize [[100, 200]] 128).get 0 1 = 255) := by
  have hb : bayer_dither [[7, 200]] = [[255, 255]] := by
    unfold bayer_dither Grid.height Grid.width Grid.get bayerThreshold bayer_matrix
    norm_num [List.range_succ]
  have hp : posterize [[100, 200]] 128 = [[0, 255]] := by decide
  constructor
  · exact (C5_binary_range [[7, 200]] 128 (by decide) (by decide)).1
      [255, 255] (by rw [hb]; decide) _ (by rw [hb]; decide)
  · exact (C5_binary_range [[100, 200]] 128 (by decide) (by decide)).2
      [0, 255] (by rw [hp]; decide) _ (by rw [hp]; decide)

/-- C7: posterize is total for every integer threshold, out-of-range
included: each pixel is 255 exactly when strictly above the threshold;
a threshold ≥ 255 yields an all-black image and a negative threshold an
all-white image. -/
theorem C7_posterize_total (g : Grid) (hwf : g.Wf) (t : Int) :
    (posterize g t).height = g.height ∧
    (∀ y x, y < g.height → x < (g.getD y []).length →
      (posterize g t).get y x = if (g.get y x : Int) > t then 255 else 0) ∧
    (255 ≤ t → ∀ row ∈ posterize g t, ∀ v ∈ row, v = 0) ∧
    (t < 0 → ∀ row ∈ posterize g t, ∀ v ∈ row, v = 255) := by
  refine ⟨by simp [posterize, Grid.height], ?_, ?_, ?_⟩
  · intro y x hy hx
    exact Grid.get_mapPixels g (fun v => if (v : Int) > t then 255 else 0) hy hx
  · intro ht row hrow v hv
    unfold posterize at hrow
    obtain ⟨r, hr, rfl⟩ := List.mem_map.mp hrow
    obtain ⟨w, hw, rfl⟩ := List.mem_map.mp hv
    have hw255 : w ≤ 255 := hwf.2 r hr w hw
    have hng : ¬ ((w : Int) > t) := by omega
    simp [hng]
  · intro ht row hrow v hv
    unfold posterize at hrow
    obtain ⟨r, hr, rfl⟩ := List.mem_map.mp hrow
    obtain ⟨w, hw, rfl⟩ := List.mem_map.mp hv
    have hgt : (w : Int) > t := by omega
    simp [hgt]

/-- Witness for C7: a threshold of 300 (out of range) is accepted and sends
pixel value 100 to black. -/
theorem C7_posterize_total_witness : (posterize [[100]] 300).get 0 0 = 0 := by
  have h := C7_posterize_total [[100]]
    ⟨by unfold Grid.Rect; decide, by decide⟩ 300
  exact h.2.2.1 (by norm_num) [0] (by decide) _ (by decide)

/-- C4: dither and posterize preserve the source dimensions; halftone with
dot_size ≥ 1 and scale ≥ 1 succeeds and produces a
(width·scale)×(height·scale) canvas. -/
theorem C4_dimensions (g : Grid) (t : Int) (d scale : Nat)
    (hd : 1 ≤ d) (hs : 1 ≤ scale) (hh : 0 < g.height) :
    (bayer_dither g).height = g.height ∧ (bayer_dither g).width = g.width ∧
    (posterize g t).height = g.height ∧ (posterize g t).width = g.width ∧
    ∃ out, halftone g (d : Int) scale = .ok out ∧
      out.height = g.height * scale ∧ out.width = g.width * scale := by
  refine ⟨by simp [bayer_dither, Grid.height], ?_, by simp [posterize, Grid.height], ?_, ?_⟩
  · unfold bayer_dither
    exact Grid.width_ofFun g.height g.width _ hh
  · cases g with
    | nil => rfl
    | cons r rest => simp [posterize, Grid.width]
  · have h0 : ¬ ((d : Int) = 0) := by
      simp only [Int.natCast_eq_zero]
      omega
    have hneg : ¬ ((d : Int) < 0) := by
      simp only [not_lt]
      exact Int.natCast_nonneg d
    obtain ⟨cs, hcs⟩ : ∃ cs, halftoneCircles g (d : Int) scale = .ok cs := by
      unfold halftoneCircles
      rw [if_neg h0, if_neg hneg]
      exact ⟨_, rfl⟩
    refine ⟨(List.range (g.height * scale)).map fun py =>
        (List.range (g.width * scale)).map fun px =>
          if cs.any (fun c => inDisk c px py) then 0 else 255, ?_, ?_, ?_⟩
    · unfold halftone
      rw [hcs]
      rfl
    · exact Grid.height_ofFun (g.height * scale) (g.width * scale) _
    · exact Grid.width_ofFun (g.height * scale) (g.width * scale) _ (Nat.mul_pos hh hs)

/-- Witness for C4 on a concrete 1×1 image. -/
theorem C4_dimensions_witness :
    Grid.height (bayer_dither [[5]]) = Grid.height [[5]] ∧
    Grid.width (posterize [[5]] 128) = Grid.width [[5]] :=
  ⟨(C4_dimensions [[5]] 128 1 1 (by decide) (by decide) (by decide)).1,
   (C4_dimensions [[5]] 128 1 1 (by decide) (by decide) (by decide)).2.2.2.1⟩

/-- Counterexample to C6 as stated: dot_size = −1 is non-positive, yet
halftone does not fail — both sampling loops are empty (Python
`range(0, n, -1)` is empty) and it returns the all-white canvas. -/
theorem C6_counterexample :
    (-1 : Int) ≤ 0 ∧ halftone [[0]] (-1) 1 = .ok [[255]] := by
  exact ⟨by decide, rfl⟩

/-- C6 amended: the halftone operation fails if and only if dot_size = 0
(the zero-step `range` raises a generic `ValueError`, not a dedicated
`InvalidParameterError`); any negative dot_size silently succeeds with an
all-white canvas, and any dot_size ≥ 1 succeeds. -/
theorem C6_amended_error_iff (g : Grid) (dot_size : Int) (scale : Nat) :
    halftone g dot_size scale = .error () ↔ dot_size = 0 := by
  unfold halftone halftoneCircles
  by_cases h0 : dot_size = 0
  · simp [h0, Except.map]
  · by_cases hneg : dot_size < 0 <;> simp [h0, hneg, Except.map]

/-- C8: with dot_size ≥ 1 and scale ≥ 1 fixed, the dot-radius formula is
antitone in the average brightness: a strictly brighter cell never gets a
strictly larger dot. -/
theorem C8_radius_monotone (d scale : Nat) (hd : 1 ≤ d) (hs : 1 ≤ scale)
    (a₁ a₂ : ℚ) (h : a₁ < a₂) :
    dot_radius a₂ d scale ≤ dot_radius a₁ d scale := by
  unfold dot_radius
  have hd' : (1:ℚ) ≤ (d : ℚ) := by exact_mod_cast hd
  have hs' : (1:ℚ) ≤ (scale : ℚ) := by exact_mod_cast hs
  have hk : (0:ℚ) ≤ (d : ℚ) * scale / 2 := by positivity
  have h2 : (255 - a₂) / 255 ≤ (255 - a₁) / 255 := by
    apply div_le_div_of_nonneg_right ?_ (by norm_num)
    linarith
  exact mul_le_mul_of_nonneg_right h2 hk

/-- Witness for C8: brightness 100 < 200 with dot_size 8, scale 1. -/
theorem C8_radius_monotone_witness :
    (100:ℚ) < 200 ∧ dot_radius 200 8 1 ≤ dot_radius 100 8 1 :=
  ⟨by norm_num, C8_radius_monotone 8 1 (by decide) (by decide) 100 200 (by norm_num)⟩

/-- C9 (Scenario F): on the uniform black 8×8 image with dot_size = 8 and
scale = 1, halftone queues exactly one circle, centered at (4,4) with
radius 4, and the output is that single circle painted onto the
otherwise-white 8×8 canvas. -/
theorem C9_scenario_f :
    halftoneCircles blackGrid8 8 1 = .ok [⟨4, 4, 4⟩] ∧
    halftone blackGrid8 8 1 = .ok ((List.range (8 * 1)).map fun py =>
      (List.range (8 * 1)).map fun px =>
        if [(⟨4, 4, 4⟩ : Circle)].any (fun c => inDisk c px py) then 0
        else 255) := by
  have hc : cellPixels blackGrid8 0 0 8 = List.replicate 64 0 := by decide
  have havg : avg_brightness blackGrid8 0 0 8 = 0 := by
    unfold avg_brightness
    rw [hc]
    norm_num [List.map_replicate, List.sum_replicate]
  have h1 : halftoneCircles blackGrid8 8 1 = .ok [⟨4, 4, 4⟩] := by
    unfold halftoneCircles
    norm_num [show pyRangePos (Grid.height blackGrid8) 8 = [0] from rfl,
      show pyRangePos (Grid.width blackGrid8) 8 = [0] from rfl,
      List.flatMap_cons, List.flatMap_nil, List.filterMap_cons,
      List.filterMap_nil, havg, dot_radius, show Int.toNat 8 = 8 from rfl]
  refine ⟨h1, ?_⟩
  unfold halftone
  rw [h1]
  rfl

/-- C10: a successful halftone output contains only the values 0 and 255 —
the canvas starts all white and circles paint pure black with no
anti-aliasing. -/
theorem C10_halftone_binary (g : Grid) (ds : Int) (scale : Nat)
    (hds : 1 ≤ ds) (hs : 1 ≤ scale) (out : Grid)
    (hout : halftone g ds scale = .ok out) :
    ∀ row ∈ out, ∀ v ∈ row, v = 0 ∨ v = 255 := by
  unfold halftone at hout
  rcases hcs : halftoneCircles g ds scale with e | cs <;> rw [hcs] at hout
  · simp [Except.map] at hout
  · have hout' : (List.range (g.height * scale)).map (fun py =>
        (List.range (g.width * scale)).map fun px =>
          if cs.any (fun c => inDisk c px py) then 0 else 255) = out := by
      simpa [Except.map] using hout
    subst hout'
    intro row hrow v hv
    obtain ⟨py, hpy, rfl⟩ := List.mem_map.mp hrow
    obtain ⟨px, hpx, rfl⟩ := List.mem_map.mp hv
    split <;> simp

/-- Witness for C10 on the all-white 1×1 image: its halftone output pixel
255 is one of the two allowed values. -/
theorem C10_halftone_binary_witness :
    Grid.get [[255]] 0 0 = 0 ∨ Grid.get [[255]] 0 0 = 255 := by
  have hcell : cellPixels [[255]] 0 0 1 = [255] := by decide
  have havg : avg_brightness [[255]] 0 0 1 = 255 := by
    unfold avg_brightness
    rw [hcell]
    norm_num
  have h1 : halftoneCircles [[255]] 1 1 = .ok [] := by
    unfold halftoneCircles
    norm_num [show pyRangePos (Grid.height [[255]]) 1 = [0] from rfl,
      show pyRangePos (Grid.width [[255]]) 1 = [0] from rfl,
      List.flatMap_cons, List.flatMap_nil, List.filterMap_cons,
      List.filterMap_nil, havg, dot_radius, show Int.toNat 1 = 1 from rfl]
  have hout : halftone [[255]] 1 1 = .ok [[255]] := by
    unfold halftone
    rw [h1]
    rfl
  exact C10_halftone_binary [[255]] 1 1 (by decide) (by decide) [[255]] hout
    [255] (by decide) (Grid.get [[255]] 0 0) (by decide)

/-- C1: with dot_size ≥ 1 and scale ≥ 1 the halftone render succeeds; the
source's per-cell average brightness is the arithmetic mean over exactly
the clipped cell, and a circle is queued if and only if it comes from a
cell of the partition (a dot_size-multiple position inside the image)
whose dot_radius = ((255 − mean)/255)·(dot_size·scale/2) exceeds 0.5, in
which case it is centered at
((cell_x + dot_size/2)·scale, (cell_y + dot_size/2)·scale) with exactly
that radius; all other cells stay white. -/
theorem C1_halftone_render (g : Grid) (d scale : Nat)
    (hd : 1 ≤ d) (hs : 1 ≤ scale) :
    ∃ cs, halftoneCircles g (d : Int) scale = .ok cs ∧
      (∀ cx cy, cx ≤ g.width → cy ≤ g.height →
        avg_brightness g cx cy d = specCellMean g cx cy d) ∧
      (∀ c : Circle, c ∈ cs ↔
        ∃ cy cx : Nat, d ∣ cy ∧ cy < g.height ∧ d ∣ cx ∧ cx < g.width ∧
          ((255 - specCellMean g cx cy d) / 255) * ((d : ℚ) * scale / 2)
            > 1 / 2 ∧
          c = ⟨((cx : ℚ) + (d : ℚ) / 2) * scale,
               ((cy : ℚ) + (d : ℚ) / 2) * scale,
               ((255 - specCellMean g cx cy d) / 255)
                 * ((d : ℚ) * scale / 2)⟩) := by
  have hd0 : (0:Nat) < d := hd
  have h0 : ¬ ((d : Int) = 0) := by
    simp only [Int.natCast_eq_zero]
    omega
  have hneg : ¬ ((d : Int) < 0) := by
    simp only [not_lt]
    exact Int.natCast_nonneg d
  have hcs : halftoneCircles g (d : Int) scale =
      .ok ((pyRangePos g.height d).flatMap fun y =>
        (pyRangePos g.width d).filterMap fun x =>
          let r := dot_radius (avg_brightness g x y d) d scale
          if r > 1 / 2 then
            some ⟨((x : ℚ) + (d : ℚ) / 2) * scale,
                  ((y : ℚ) + (d : ℚ) / 2) * scale, r⟩
          else none) := by
    unfold halftoneCircles
    rw [if_neg h0, if_neg hneg]
    simp only [Int.toNat_natCast]
  refine ⟨_, hcs,
    fun cx cy hx hy => avg_brightness_eq_specCellMean g cx cy d hx hy,
    fun c => ?_⟩
  rw [List.mem_flatMap]
  constructor
  · rintro ⟨y, hy, hc⟩
    obtain ⟨x, hx, hfx⟩ := List.mem_filterMap.mp hc
    rw [mem_pyRangePos hd0] at hy hx
    obtain ⟨hdy, hylt⟩ := hy
    obtain ⟨hdx, hxlt⟩ := hx
    dsimp only at hfx
    rw [avg_brightness_eq_specCellMean g x y d (le_of_lt hxlt)
      (le_of_lt hylt)] at hfx
    simp only [dot_radius] at hfx
    split at hfx
    · rename_i hcond
      exact ⟨y, x, hdy, hylt, hdx, hxlt, hcond, (Option.some.inj hfx).symm⟩
    · exact absurd hfx (by simp)
  · rintro ⟨cy, cx, hdy, hylt, hdx, hxlt, hcond, rfl⟩
    refine ⟨cy, (mem_pyRangePos hd0).2 ⟨hdy, hylt⟩, ?_⟩
    rw [List.mem_filterMap]
    refine ⟨cx, (mem_pyRangePos hd0).2 ⟨hdx, hxlt⟩, ?_⟩
    dsimp only
    rw [avg_brightness_eq_specCellMean g cx cy d (le_of_lt hxlt)
      (le_of_lt hylt)]
    simp only [dot_radius]
    rw [if_pos hcond]

/-- Witness for C1 on the black 8×8 image with dot_size 8, scale 1: the
cell at (0,0) satisfies the characterization, so the circle of center
(4,4) and radius 4 is queued. -/
theorem C1_halftone_render_witness :
    (⟨4, 4, 4⟩ : Circle) ∈ ([⟨4, 4, 4⟩] : List Circle) := by
  obtain ⟨cs, h1, _, h3⟩ := C1_halftone_render blackGrid8 8 1
    (by decide) (by decide)
  have hc : cellPixels blackGrid8 0 0 8 = List.replicate 64 0 := by decide
  have havg : avg_brightness blackGrid8 0 0 8 = 0 := by
    unfold avg_brightness
    rw [hc]
    norm_num [List.map_replicate, List.sum_replicate]
  have hspec : specCellMean blackGrid8 0 0 8 = 0 := by
    rw [← avg_brightness_eq_specCellMean blackGrid8 0 0 8 (by decide) (by decide)]
    exact havg
  have h2 : halftoneCircles blackGrid8 ((8 : Nat) : Int) 1 = .ok [⟨4, 4, 4⟩] := by
    rw [show ((8 : Nat) : Int) = (8 : Int) by norm_num]
    unfold halftoneCircles
    norm_num [show pyRangePos (Grid.height blackGrid8) 8 = [0] from rfl,
      show pyRangePos (Grid.width blackGrid8) 8 = [0] from rfl,
      List.flatMap_cons, List.flatMap_nil, List.filterMap_cons,
      List.filterMap_nil, havg, dot_radius, show Int.toNat 8 = 8 from rfl]
  have hcseq : cs = [⟨4, 4, 4⟩] := by
    rw [h1] at h2
    exact Except.ok.inj h2
  rw [← hcseq]
  rw [h3]
  refine ⟨0, 0, ⟨0, rfl⟩, by decide, ⟨0, rfl⟩, by decide, ?_, ?_⟩
  · rw [hspec]
    norm_num
  · rw [hspec]
    norm_num

end ImgTransform
